import Mathlib

/-!
# Verification of the taskmeister process supervisor core

This file gives a shallow embedding of the supervisor's core data model and
operations, translated from the Rust sources:

* `src/server/service.rs` — service registry, restart options, reload diff;
* `src/server/jobs.rs`    — job records and the start/stop/kill request
  handlers of the orchestrator defined in that file;
* `src/server/events.rs` and `src/server/orchestrate.rs` — the event-driven
  orchestrator (`manage_event` and its state helpers);
* `src/server/watcher.rs` — the per-process polling step of the watcher;
* `src/server/io_router.rs` — the I/O router's per-request handling and the
  replay-buffer snapshot.

Rust `HashMap`s keyed by alias_ are modelled as association lists with a
lookup that returns the first binding; `insert` replaces the binding in
place, `remove` drops it.  Machine integers (`u8` retry counters) are
modelled as `Nat` with explicit `% 256` where the source increments them.
OS side effects (spawning children, `kill(2)`, messages to the I/O router)
are modelled as an explicit list of emitted `Effect`s; the OS calls
themselves are assumed to succeed, which is the only behaviour the claims
under study exercise.
-/

/-! ## Association-list maps -/

def lookupA {β : Type} : List (String × β) → String → Option β
  | [], _ => none
  | (k, v) :: rest, a => if k = a then some v else lookupA rest a

/-- `HashMap::insert`: replace the binding in place, or append it. -/
def insertA {β : Type} : List (String × β) → String → β → List (String × β)
  | [], k, v => [(k, v)]
  | (k', v') :: rest, k, v =>
      if k' = k then (k, v) :: rest else (k', v') :: insertA rest k v

/-- `HashMap::remove`. -/
def eraseA {β : Type} : List (String × β) → String → List (String × β)
  | [], _ => []
  | (k', v') :: rest, k =>
      if k' = k then eraseA rest k else (k', v') :: eraseA rest k

/-- `HashMap::get_mut` followed by a field update: rewrite the value bound to
`k` through `f`, leaving the map unchanged when `k` is absent. -/
def adjustA {β : Type} : List (String × β) → String → (β → β) → List (String × β)
  | [], _, _ => []
  | (k', v') :: rest, k, f =>
      if k' = k then (k', f v') :: rest else (k', v') :: adjustA rest k f

/-- `HashMap::entry(..).or_insert(v)`: insert `v` only when `k` is absent. -/
def insertNewA {β : Type} (l : List (String × β)) (k : String) (v : β) :
    List (String × β) :=
  if (lookupA l k).isSome then l else (k, v) :: l

/-! ## Shared data model -/

/-- `JobStatus` from `src/server/jobs.rs`. -/
inductive JobStatus where
  | Created
  | Starting
  | Running (healthy : Bool)
  | Stopping
  | Finished (code : Int)
  | TimedOut
deriving DecidableEq, Repr

/-- `RestartOptions` from `src/server/service.rs` (`u8` ceilings as `Nat`). -/
inductive RestartOptions where
  | Never
  | Always (retries : Nat)
  | OnError (retries : Nat)
deriving DecidableEq, Repr

/-- `Service` from `src/server/service.rs`; paths are modelled as strings and
the `env` map as an association list. -/
structure Service where
  file : String
  alias_ : String
  cmd : String
  numprocs : Nat
  restart : RestartOptions
  start_time : Nat
  stop_signal : Int
  stop_wait : Nat
  exit_codes : List Int
  stdout : String
  stdin : String
  stderr : String
  env : List (String × String)
  working_dir : String
  umask : Nat
deriving DecidableEq, Repr

/-- The scanning loop of `Service::validate_exit_code`. -/
def validateLoop (codes : List Int) (exit_code : Int) : Bool :=
  match codes with
  | [] => false
  | code :: rest => if exit_code = code then true else validateLoop rest exit_code

/-- `Service::validate_exit_code` from `src/server/service.rs`. -/
def Service.validate_exit_code (s : Service) (exit_code : Int) : Bool :=
  validateLoop s.exit_codes exit_code

/-- `ServiceAction` from `src/server/service.rs`. -/
inductive ServiceAction where
  | Start (alias_ : String)
  | Restart (alias_ : String)
  | Stop (alias_ : String)
  | Status (alias_ : String)
  | Attach (alias_ : String)
  | Detach (alias_ : String)
  | Input (alias_ : String) (data : List Nat)
  | Reload
  | Help
deriving DecidableEq, Repr

/-- `OrchestratorError`; the union of the variants appearing in
`src/server/orchestrate.rs`, `src/server/jobs.rs` and `src/server/io_router.rs`
(the payload of `JobIoError` is dropped). -/
inductive OrchestratorError where
  | ServiceNotFound
  | ServiceUpdate
  | ServiceStopped
  | ServiceAlreadyStarted
  | ServiceAlreadyStopping
  | JobNotFound
  | JobHasNoIoHandle
  | JobIoError
  | JobAlreadyAttached
  | InternalChannelSendError
  | InternalChannelReceiveError
deriving DecidableEq, Repr

/-- Observable side effects of the orchestrator: messages to the I/O router,
signals delivered by `kill(2)`, and child spawns. -/
inductive Effect where
  | stopForwardingFx (alias_ : String)
  | removeIoFx (alias_ : String)
  | killFx (pid : Nat) (signal : Int)
  | spawnFx (alias_ : String)
  | createIoFx (alias_ : String)
deriving DecidableEq, Repr

def SIGKILL : Int := 9
def SIGTERM : Int := 15

/-! ## Service registry reload diff (`Services::update`) -/

/-- The `for (alias_, serv) in &new_services` loop of `Services::update`:
walk the freshly loaded definitions, emit a `Restart` for every alias_ whose
old definition differs, and delete every alias_ found in the old registry so
that only the disappeared services remain. -/
def updateLoop (news : List (String × Service)) (old : List (String × Service)) :
    List ServiceAction × List (String × Service) :=
  match news with
  | [] => ([], old)
  | (alias_, serv) :: rest =>
      match lookupA old alias_ with
      | some oldServ =>
          let r := updateLoop rest (eraseA old alias_)
          (if oldServ ≠ serv then ServiceAction.Restart alias_ :: r.1 else r.1, r.2)
      | none => updateLoop rest old

/-- `Services::update` from `src/server/service.rs`, parameterised by the old
registry contents and the newly loaded definitions (the on-disk load itself is
outside the model).  Returns the emitted actions and the new registry. -/
def Services.update (old news : List (String × Service)) :
    List ServiceAction × List (String × Service) :=
  let r := updateLoop news old
  (r.1 ++ r.2.map (fun p => ServiceAction.Stop p.1), news ++ r.2)

/-! ## The orchestrator of `src/server/jobs.rs`

`src/server/jobs.rs` defines a self-contained `Orchestrator` whose request
handlers `start_request`, `stop_request`, `kill_job`, `start_job` and
`stop_job` are modelled here under the `jobs` namespace.  Its `Job` record
carries no flags. -/

namespace jobs

/-- `Job` from `src/server/jobs.rs`. -/
structure Job where
  status : JobStatus
  retries : Nat
  last_exit_code : Int
deriving DecidableEq, Repr

/-- A watched child process: pid, previous emitted status, and the optional
armed deadline (modelled by the armed duration in seconds; `kill_job` and
`start_job` arm it, `timeout.remove()` clears it). -/
structure WatchedJob where
  process : Nat
  previous_status : JobStatus
  timeout : Option Nat
deriving DecidableEq, Repr

/-- The `jobs.rs` orchestrator state: service registry, job table and the
watched map. -/
structure Orchestrator where
  services : List (String × Service)
  jobs : List (String × Job)
  watched : List (String × List WatchedJob)
deriving DecidableEq, Repr

/-- `Orchestrator::create_job`: get the job for `a`, creating it in state
`Created` when absent. -/
def create_job (st : Orchestrator) (a : String) : Orchestrator × Job :=
  match lookupA st.jobs a with
  | some j => (st, j)
  | none =>
      let j : Job := { status := JobStatus.Created, retries := 0, last_exit_code := 0 }
      ({ st with jobs := insertNewA st.jobs a j }, j)

/-- `Orchestrator::start_job`: look up the service, spawn its command (the
spawn is assumed to succeed; the OS-chosen pid is abstracted as `0`) and
install a fresh `Watched` entry with the start-time deadline armed. -/
def start_job (st : Orchestrator) (a : String) :
    Orchestrator × List Effect × Except OrchestratorError Unit :=
  match lookupA st.services a with
  | none => (st, [], Except.error OrchestratorError.ServiceNotFound)
  | some srv =>
      ({ st with
          watched := insertA st.watched a
            [{ process := 0, previous_status := JobStatus.Starting,
               timeout := some srv.start_time }] },
        [Effect.spawnFx a], Except.ok ())

/-- `Orchestrator::kill_job`: arm the stop deadline on every watched entry of
`a` and send `signal` to each pid (`kill(2)` is assumed to succeed). -/
def kill_job (st : Orchestrator) (a : String) (signal : Int) (timeout : Nat) :
    Orchestrator × List Effect × Except OrchestratorError Unit :=
  match lookupA st.watched a with
  | none => (st, [], Except.error OrchestratorError.JobNotFound)
  | some ws =>
      ({ st with
          watched := adjustA st.watched a
            (List.map (fun w => { w with timeout := some timeout })) },
        ws.map (fun w => Effect.killFx w.process signal), Except.ok ())

/-- `Orchestrator::stop_job`: signal the job with the service's configured
stop signal and stop-wait deadline. -/
def stop_job (st : Orchestrator) (a : String) :
    Orchestrator × List Effect × Except OrchestratorError Unit :=
  match lookupA st.services a with
  | none => (st, [], Except.error OrchestratorError.ServiceNotFound)
  | some srv => kill_job st a srv.stop_signal srv.stop_wait

/-- `Orchestrator::start_request` from `src/server/jobs.rs` (lines 208–246).
Note that `job.status = JobStatus::Starting` is executed unconditionally in
the source, before the response is inspected. -/
def start_request (st : Orchestrator) (a : String) :
    Orchestrator × List Effect × Except OrchestratorError Unit :=
  let cj := create_job st a
  let response : Except OrchestratorError Unit :=
    match cj.2.status with
    | JobStatus.Starting | JobStatus.Running _ | JobStatus.Stopping
    | JobStatus.TimedOut => Except.error OrchestratorError.ServiceAlreadyStarted
    | JobStatus.Finished _ => Except.ok ()
    | JobStatus.Created => Except.ok ()
  let st2 : Orchestrator :=
    { cj.1 with
        jobs := adjustA cj.1.jobs a (fun j =>
          { j with
              status := JobStatus.Starting,
              last_exit_code :=
                match j.status with
                | JobStatus.Finished c => c
                | _ => j.last_exit_code }) }
  match response with
  | Except.ok _ => start_job st2 a
  | Except.error e => (st2, [], Except.error e)

/-- `Orchestrator::stop_request` from `src/server/jobs.rs` (lines 248–279).
Note that `job.status = JobStatus::Stopping` is executed unconditionally in
the source, before the response is inspected. -/
def stop_request (st : Orchestrator) (a : String) :
    Orchestrator × List Effect × Except OrchestratorError Unit :=
  match lookupA st.jobs a with
  | none => (st, [], Except.error OrchestratorError.JobNotFound)
  | some job =>
      let response : Except OrchestratorError Unit :=
        match job.status with
        | JobStatus.Starting | JobStatus.Running _ => Except.ok ()
        | JobStatus.Stopping | JobStatus.TimedOut =>
            Except.error OrchestratorError.ServiceAlreadyStopping
        | JobStatus.Finished _ => Except.error OrchestratorError.ServiceStopped
        | JobStatus.Created => Except.error OrchestratorError.ServiceStopped
      let st2 : Orchestrator :=
        { st with
            jobs := adjustA st.jobs a (fun j =>
              { j with
                  status := JobStatus.Stopping,
                  last_exit_code :=
                    match j.status with
                    | JobStatus.Finished c => c
                    | _ => j.last_exit_code }) }
      match response with
      | Except.ok _ => stop_job st2 a
      | Except.error e => (st2, [], Except.error e)

end jobs

/-! ## The event-driven orchestrator (`src/server/orchestrate.rs` + `src/server/events.rs`) -/

namespace orchestrate

/-- `JobFlags`: single-shot flags consumed by the next Finished transition
(used by `src/server/events.rs`; the struct itself is declared in a file of
this repository that is not under `src/`, its shape is fixed by the spec's
`flags: { remove_service, restart_job }`). -/
structure JobFlags where
  remove_service : Bool := false
  restart_job : Bool := false
deriving DecidableEq, Repr

/-- `JobFlags::consume`: read-and-reset, per the spec's single-shot-flag
contract. -/
def JobFlags.consume (f : JobFlags) : JobFlags × JobFlags :=
  (f, {})

/-- The mutable `Job` record used by `orchestrate.rs`/`events.rs`
(`job.status`, `job.retries`, `job.flags`, `job.started`,
`job.last_exit_code`). -/
structure Job where
  status : JobStatus
  retries : Nat
  last_exit_code : Int
  flags : JobFlags
  started : Option String
deriving DecidableEq, Repr

/-- `Watched`, as used by `orchestrate.rs`: pid, the status last emitted by
the watcher, and the optional armed deadline (modelled by its duration;
`remove_watched_timeout` clears it, `kill_job` re-arms it). -/
structure Watched where
  process : Nat
  previous_status : JobStatus
  timeout : Option Nat
deriving DecidableEq, Repr

/-- The `orchestrate.rs` orchestrator state (channels and logger omitted):
service registry, job table, watched map. -/
structure Orchestrator where
  services : List (String × Service)
  jobs : List (String × Job)
  watched : List (String × List Watched)
deriving DecidableEq, Repr

/-- `JobEvent` from `src/server/events.rs`. -/
structure JobEvent where
  alias_ : String
  status : JobStatus
deriving DecidableEq, Repr

/-- `Orchestrator::get_job_status`. -/
def get_job_status (st : Orchestrator) (a : String) : Option JobStatus :=
  (lookupA st.jobs a).map Job.status

/-- `Orchestrator::consume_job_flags`: default flags when the job is absent,
otherwise read-and-reset. -/
def consume_job_flags (st : Orchestrator) (a : String) : JobFlags × Orchestrator :=
  match lookupA st.jobs a with
  | none => ({}, st)
  | some j =>
      (j.flags, { st with jobs := adjustA st.jobs a (fun j => { j with flags := {} }) })

/-- `Orchestrator::inc_job_retries`: increment the `u8` retry counter and
return its new value, `none` when the job is absent. -/
def inc_job_retries (st : Orchestrator) (a : String) : Option Nat × Orchestrator :=
  match lookupA st.jobs a with
  | none => (none, st)
  | some j =>
      (some ((j.retries + 1) % 256),
        { st with jobs := adjustA st.jobs a (fun j => { j with retries := (j.retries + 1) % 256 }) })

/-- `Orchestrator::remove_service`. -/
def remove_service (st : Orchestrator) (a : String) : Orchestrator :=
  { st with services := eraseA st.services a }

/-- `Orchestrator::set_watched_status` (the `JobNotFound` error is inspected
and dropped by the only caller, so the state update alone is modelled). -/
def set_watched_status (st : Orchestrator) (a : String) (s : JobStatus) : Orchestrator :=
  { st with
      watched := adjustA st.watched a
        (List.map (fun w => { w with previous_status := s })) }

/-- `Orchestrator::remove_watched`. -/
def remove_watched (st : Orchestrator) (a : String) : Orchestrator :=
  { st with watched := eraseA st.watched a }

/-- `Orchestrator::remove_watched_timeout`. -/
def remove_watched_timeout (st : Orchestrator) (a : String) : Orchestrator :=
  { st with
      watched := adjustA st.watched a
        (List.map (fun w => { w with timeout := none })) }

/-- `Orchestrator::kill_job`, with the body of `src/server/jobs.rs`
(lines 176–205): arm the given deadline on every watched entry of `a` and
send `signal` to every pid, `JobNotFound` when no entry exists. -/
def kill_job (st : Orchestrator) (a : String) (signal : Int) (timeout : Nat) :
    Orchestrator × List Effect × Except OrchestratorError Unit :=
  match lookupA st.watched a with
  | none => (st, [], Except.error OrchestratorError.JobNotFound)
  | some ws =>
      ({ st with
          watched := adjustA st.watched a
            (List.map (fun w => { w with timeout := some timeout })) },
        ws.map (fun w => Effect.killFx w.process signal), Except.ok ())

/-- Modelled from the spec: `Orchestrator::start_request` for the
`orchestrate.rs` orchestrator is declared in a file of this repository that is
not under `src/` (only its callers in `orchestrate.rs` and `events.rs` are).
Following spec §4.3 Start: ensure the Job exists (create with status
`Created`); reject with `ServiceAlreadyStarted` if the status is Starting,
Running, Stopping or TimedOut; if the status is `Finished(c)`, remember `c`
as `last_exit_code`; then set status `Starting`, refresh `started_at`, spawn
the child (assumed to succeed, pid abstracted as `0`), issue `Create` to the
I/O router, and install a new `Watched` with the start-time deadline armed.
A missing service surfaces `ServiceNotFound`. -/
def start_request (st : Orchestrator) (a : String) :
    Orchestrator × List Effect × Except OrchestratorError Unit :=
  let newJob : Job :=
    { status := JobStatus.Created, retries := 0, last_exit_code := 0,
      flags := {}, started := none }
  let st0 : Orchestrator := { st with jobs := insertNewA st.jobs a newJob }
  match lookupA st0.jobs a with
  | none => (st0, [], Except.error OrchestratorError.JobNotFound)
  | some job =>
      match job.status with
      | JobStatus.Starting | JobStatus.Running _ | JobStatus.Stopping
      | JobStatus.TimedOut =>
          (st0, [], Except.error OrchestratorError.ServiceAlreadyStarted)
      | _ =>
          match lookupA st0.services a with
          | none => (st0, [], Except.error OrchestratorError.ServiceNotFound)
          | some srv =>
              let st1 : Orchestrator :=
                { st0 with
                    jobs := adjustA st0.jobs a (fun j =>
                      { j with
                          status := JobStatus.Starting,
                          started := some "now",
                          last_exit_code :=
                            match j.status with
                            | JobStatus.Finished c => c
                            | _ => j.last_exit_code }) }
              ({ st1 with
                  watched := insertA st1.watched a
                    [{ process := 0, previous_status := JobStatus.Starting,
                       timeout := some srv.start_time }] },
                [Effect.spawnFx a, Effect.createIoFx a], Except.ok ())

/-- `Orchestrator::manage_event` from `src/server/events.rs`.  The returned
effect list records the messages sent to the I/O router, the signals sent,
and the spawns performed by a restart. -/
def manage_event (st : Orchestrator) (event : JobEvent) : Orchestrator × List Effect :=
  match lookupA st.services event.alias_ with
  | none => (st, [])
  | some service =>
  match get_job_status st event.alias_ with
  | none => (st, [])
  | some previous_status =>
    let step : Orchestrator × List Effect × JobStatus × Bool :=
      match event.status with
      | JobStatus.Created | JobStatus.Starting | JobStatus.Stopping =>
          (st, [], event.status, false)
      | JobStatus.Running b =>
          match previous_status with
          | JobStatus.Created | JobStatus.Finished _ | JobStatus.Running _ =>
              (st, [], JobStatus.Running b, false)
          | JobStatus.Stopping => (st, [], JobStatus.Stopping, false)
          | JobStatus.Starting =>
              (set_watched_status st event.alias_ (JobStatus.Running false),
                [], JobStatus.Running false, false)
          | JobStatus.TimedOut => (st, [], JobStatus.Running true, false)
      | JobStatus.Finished c =>
          let effs0 := [Effect.stopForwardingFx event.alias_, Effect.removeIoFx event.alias_]
          let stA := remove_watched st event.alias_
          if previous_status = JobStatus.Stopping then
            let cf := consume_job_flags stA event.alias_
            let stC :=
              if cf.1.remove_service then remove_service cf.2 event.alias_ else cf.2
            (stC, effs0, JobStatus.Finished c, cf.1.restart_job)
          else
            match service.restart with
            | RestartOptions.Never => (stA, effs0, JobStatus.Finished c, false)
            | RestartOptions.Always retries =>
                match inc_job_retries stA event.alias_ with
                | (some current_retries, stB) =>
                    if current_retries < retries then
                      (stB, effs0, JobStatus.Finished c, true)
                    else (stB, effs0, JobStatus.Finished c, false)
                | (none, stB) => (stB, effs0, JobStatus.Finished c, false)
            | RestartOptions.OnError retries =>
                match inc_job_retries stA event.alias_ with
                | (some current_retries, stB) =>
                    if !(service.validate_exit_code c) then
                      if current_retries < retries then
                        (stB, effs0, JobStatus.Finished c, true)
                      else (stB, effs0, JobStatus.Finished c, false)
                    else (stB, effs0, JobStatus.Finished c, false)
                | (none, stB) => (stB, effs0, JobStatus.Finished c, false)
      | JobStatus.TimedOut =>
          match previous_status with
          | JobStatus.Running _ | JobStatus.Starting =>
              (remove_watched_timeout st event.alias_, [], JobStatus.Running true, false)
          | JobStatus.TimedOut | JobStatus.Stopping =>
              let k := kill_job st event.alias_ SIGKILL service.stop_wait
              (k.1, k.2.1, JobStatus.Stopping, false)
          | JobStatus.Created | JobStatus.Finished _ =>
              (st, [], JobStatus.TimedOut, false)
    match lookupA step.1.jobs event.alias_ with
    | none => (step.1, step.2.1)
    | some _ =>
        let st2 : Orchestrator :=
          { step.1 with
              jobs := adjustA step.1.jobs event.alias_
                (fun j => { j with status := step.2.2.1 }) }
        if step.2.2.2 then
          let sr := start_request st2 event.alias_
          (sr.1, step.2.1 ++ sr.2.1)
        else (st2, step.2.1)

end orchestrate

/-! ## The watcher (`src/server/watcher.rs`) -/

namespace watcher

/-- `WatchedTimeout` from `src/server/watcher.rs`: a creation instant and a
duration, on an abstract monotonic clock measured in ticks. -/
structure WatchedTimeout where
  created_at : Nat
  time : Nat
deriving DecidableEq, Repr

/-- `WatchedTimeout::has_timed_out`: the elapsed time reached the duration. -/
def WatchedTimeout.has_timed_out (t : WatchedTimeout) (now : Nat) : Bool :=
  t.created_at + t.time ≤ now

/-- `WatchedJob` from `src/server/watcher.rs`. -/
structure WatchedJob where
  process : Nat
  timeout : WatchedTimeout
  previous_status : JobStatus
deriving DecidableEq, Repr

/-- The outcome of `Child::try_wait`, the input of
`exit_status_to_job_status`: an error, a still-running child, or an exit
status whose code the OS may withhold. -/
inductive ProbeResult where
  | probeErr
  | stillRunning
  | exited (code : Option Int)
deriving DecidableEq, Repr

/-- `exit_status_to_job_status` from `src/server/watcher.rs` (a withheld exit
code defaults to 0; a running child maps to the `Running` status the watcher
emits). -/
def exit_status_to_job_status (status : ProbeResult) : JobStatus :=
  match status with
  | ProbeResult.exited code => JobStatus.Finished (code.getD 0)
  | ProbeResult.stillRunning => JobStatus.Running true
  | ProbeResult.probeErr => JobStatus.TimedOut

/-- The per-job body of the `watch` loop (`src/server/watcher.rs`, lines
49–84): when the deadline has expired, record and emit `TimedOut`; otherwise
probe the child and emit the computed status only when it differs from
`previous_status`.  Returns the updated entry and the emitted status, if
any. -/
def watchStep (now : Nat) (probe : ProbeResult) (job : WatchedJob) :
    WatchedJob × Option JobStatus :=
  if job.timeout.has_timed_out now then
    ({ job with previous_status := JobStatus.TimedOut }, some JobStatus.TimedOut)
  else
    let new_status := exit_status_to_job_status probe
    if new_status ≠ job.previous_status then
      ({ job with previous_status := new_status }, some new_status)
    else (job, none)

end watcher

/-! ## The I/O router (`src/server/io_router.rs`) -/

namespace io_router

/-- The stdout half of a `Tee`: optional default sink, optional forwarding
channel (channels are identified by a number), and the ring buffer of read
slices (newest last).  The live pipe handle is outside the model. -/
structure Stdout where
  def_stdout : Option String
  tx : Option Nat
  buff : List (List Nat)
deriving DecidableEq, Repr

/-- The stderr half of a `Tee`. -/
structure Stderr where
  def_stderr : Option String
  tx : Option Nat
  buff : List (List Nat)
deriving DecidableEq, Repr

/-- `Tee` from `src/server/io_router.rs`. -/
structure Tee where
  stdout : Stdout
  stderr : Stderr
deriving DecidableEq, Repr

/-- `ring_buf_push`: evict the oldest slice when the buffer holds `cap`
slices, then append the new slice. -/
def ring_buf_push (cap : Nat) (buff : List (List Nat)) (element : List Nat) :
    List (List Nat) :=
  let buff := if buff.length = cap then buff.tail else buff
  buff ++ [element]

/-- The `StartForwarding` arm of `route` (`src/server/io_router.rs`, lines
161–183): `JobNotFound` when no `Tee` exists for the alias; when a stdout
forwarding channel is already set, `JobAlreadyAttached` and no change;
otherwise install both channels. -/
def routeStartForwarding (ios : List (String × Tee)) (a : String)
    (stdout_channel stderr_channel : Nat) :
    List (String × Tee) × Except OrchestratorError Unit :=
  match lookupA ios a with
  | none => (ios, Except.error OrchestratorError.JobNotFound)
  | some tee =>
      if tee.stdout.tx.isSome then
        (ios, Except.error OrchestratorError.JobAlreadyAttached)
      else
        (adjustA ios a (fun tee =>
          { tee with
              stdout := { tee.stdout with tx := some stdout_channel },
              stderr := { tee.stderr with tx := some stderr_channel } }),
          Except.ok ())

/-- The `ReadBuff` arm of `route` (`src/server/io_router.rs`, lines 184–202):
reply with the concatenation of the retained stdout slices and the retained
stderr slices (two empty vectors when the alias has no `Tee`). -/
def routeReadBuff (ios : List (String × Tee)) (a : String) :
    List Nat × List Nat :=
  match lookupA ios a with
  | some tee =>
      (tee.stdout.buff.flatMap (fun elem => elem),
        tee.stderr.buff.flatMap (fun elem => elem))
  | none => ([], [])

/-- The truncation performed by the consumer `RouterRequest::read_buff`
(`src/server/io_router.rs`, lines 283–299): keep
`buf[buf.len().saturating_sub(512)..]`, the last 512 bytes. -/
def read_buff_keep (buf : List Nat) : List Nat :=
  buf.drop (buf.length - 512)

end io_router

/-! ## Closed scenarios (spec §8, scenarios 2 and 3)

A deterministic driver for a single service whose command always exits with
the same code: after a start, the watcher reaps each spawned process and
delivers one `Finished` event for it; the loop ends when no watched entry
remains (no live process, so the watcher has nothing to reap). -/

namespace orchestrate

/-- Number of spawns recorded in an effect list. -/
def countSpawns (effs : List Effect) : Nat :=
  (effs.filter (fun e =>
    match e with
    | Effect.spawnFx _ => true
    | _ => false)).length

/-- Deliver `Finished code` events for `a` while a watched entry exists
(i.e. while a process is live), accumulating the number of Finished events
processed and the number of spawns performed by restarts.  `fuel` bounds the
iteration. -/
def spinFinished (a : String) (code : Int) : Nat → Orchestrator → Orchestrator × Nat × Nat
  | 0, st => (st, 0, 0)
  | fuel + 1, st =>
      if (lookupA st.watched a).isSome then
        let me := manage_event st { alias_ := a, status := JobStatus.Finished code }
        let rec_ := spinFinished a code fuel me.1
        (rec_.1, rec_.2.1 + 1, countSpawns me.2 + rec_.2.2)
      else (st, 0, 0)

/-- Scenario 2's service: `crash`, `cmd="/bin/false"`, `restart=Always(max)`,
`start_time=0`. -/
def crashService (max : Nat) : Service :=
  { file := "crash.toml", alias_ := "crash", cmd := "/bin/false", numprocs := 1,
    restart := RestartOptions.Always max, start_time := 0, stop_signal := SIGTERM,
    stop_wait := 5, exit_codes := [], stdout := "null", stdin := "null",
    stderr := "null", env := [], working_dir := ".", umask := 0 }

/-- Orchestrator state holding exactly the `crash` service, before any job
was started. -/
def crashInit (max : Nat) : Orchestrator :=
  { services := [("crash", crashService max)], jobs := [], watched := [] }

/-- The `crash` scenario: client `start crash`, then the driver loop.
Returns the final state, the number of Finished events observed, and the
total number of spawns (the initial one included). -/
def crashRun (max fuel : Nat) : Orchestrator × Nat × Nat :=
  let sr := start_request (crashInit max) "crash"
  let spin := spinFinished "crash" 1 fuel sr.1
  (spin.1, spin.2.1, countSpawns sr.2.1 + spin.2.2)

/-- The orchestrator state mid-loop in the `crash` scenario: the job has just
been (re)spawned with `retries = r` and `last_exit_code = lec`. -/
def crashState (max r : Nat) (lec : Int) : Orchestrator :=
  { services := [("crash", crashService max)],
    jobs := [("crash",
      { status := JobStatus.Starting, retries := r, last_exit_code := lec,
        flags := {}, started := some "now" })],
    watched := [("crash",
      [{ process := 0, previous_status := JobStatus.Starting, timeout := some 0 }])] }

/-- The final state of the `crash` scenario: retries exhausted, no watched
entry left. -/
def crashFinal (max : Nat) (lec : Int) : Orchestrator :=
  { services := [("crash", crashService max)],
    jobs := [("crash",
      { status := JobStatus.Finished 1, retries := max, last_exit_code := lec,
        flags := {}, started := some "now" })],
    watched := [] }

/-- Scenario 3's service: `ok_exit`, `cmd="/bin/true"`, `restart=OnError(5)`,
`exit_codes=[0]`. -/
def okExitService : Service :=
  { file := "ok_exit.toml", alias_ := "ok_exit", cmd := "/bin/true", numprocs := 1,
    restart := RestartOptions.OnError 5, start_time := 0, stop_signal := SIGTERM,
    stop_wait := 5, exit_codes := [0], stdout := "null", stdin := "null",
    stderr := "null", env := [], working_dir := ".", umask := 0 }

/-- Orchestrator state holding exactly the `ok_exit` service. -/
def okExitInit : Orchestrator :=
  { services := [("ok_exit", okExitService)], jobs := [], watched := [] }

/-- The `ok_exit` scenario: client `start ok_exit`, command exits 0, then the
driver loop. -/
def okExitRun (fuel : Nat) : Orchestrator × Nat × Nat :=
  let sr := start_request okExitInit "ok_exit"
  let spin := spinFinished "ok_exit" 0 fuel sr.1
  (spin.1, spin.2.1, countSpawns sr.2.1 + spin.2.2)

end orchestrate

/-- A concrete service definition used to instantiate the theorems below on
explicit inputs. -/
def demoService : Service :=
  { file := "demo.toml", alias_ := "demo", cmd := "/bin/sleep 60", numprocs := 1,
    restart := RestartOptions.Never, start_time := 2, stop_signal := SIGTERM,
    stop_wait := 4, exit_codes := [0], stdout := "null", stdin := "null",
    stderr := "null", env := [], working_dir := ".", umask := 0 }

/-- A `jobs.rs` orchestrator state with a finished `demo` job, used to
instantiate the stop-request theorems. -/
def jobs.demoFinishedState : jobs.Orchestrator :=
  { services := [("demo", demoService)],
    jobs := [("demo",
      { status := JobStatus.Finished 0, retries := 0, last_exit_code := 0 })],
    watched := [] }

/-- A `jobs.rs` orchestrator state with a healthy running `demo` job, used to
instantiate the start-request theorems. -/
def jobs.demoRunningState : jobs.Orchestrator :=
  { services := [("demo", demoService)],
    jobs := [("demo",
      { status := JobStatus.Running true, retries := 2, last_exit_code := 0 })],
    watched := [("demo",
      [{ process := 42, previous_status := JobStatus.Running true, timeout := none }])] }

/-! ## Lemmas about the association-list maps -/

theorem lookupA_eraseA_self {β : Type} (l : List (String × β)) (k : String) :
    lookupA (eraseA l k) k = none := by
  induction l with
  | nil => rfl
  | cons p rest ih =>
      rcases p with ⟨k', v'⟩
      by_cases hk : k' = k
      · simpa [eraseA, hk] using ih
      · simpa [eraseA, lookupA, hk] using ih

theorem lookupA_eraseA_ne {β : Type} (l : List (String × β)) (k a : String)
    (h : a ≠ k) : lookupA (eraseA l k) a = lookupA l a := by
  induction l with
  | nil => rfl
  | cons p rest ih =>
      rcases p with ⟨k', v'⟩
      by_cases hk : k' = k
      · have hka : ¬ (k' = a) := by
          rw [hk]; exact fun e => h e.symm
        rw [eraseA, if_pos hk, ih, lookupA, if_neg hka]
      · by_cases ha : k' = a
        · rw [eraseA, if_neg hk, lookupA, if_pos ha, lookupA, if_pos ha]
        · rw [eraseA, if_neg hk, lookupA, if_neg ha, lookupA, if_neg ha, ih]

theorem lookupA_adjustA_self {β : Type} (l : List (String × β)) (k : String)
    (f : β → β) : lookupA (adjustA l k f) k = (lookupA l k).map f := by
  induction l with
  | nil => rfl
  | cons p rest ih =>
      rcases p with ⟨k', v'⟩
      by_cases h : k' = k
      · rw [adjustA, if_pos h, lookupA, if_pos h, lookupA, if_pos h]; rfl
      · rw [adjustA, if_neg h, lookupA, if_neg h, lookupA, if_neg h, ih]

theorem lookupA_adjustA_ne {β : Type} (l : List (String × β)) (k a : String)
    (f : β → β) (h : a ≠ k) : lookupA (adjustA l k f) a = lookupA l a := by
  induction l with
  | nil => rfl
  | cons p rest ih =>
      rcases p with ⟨k', v'⟩
      by_cases hk : k' = k
      · have hka : ¬ (k' = a) := by
          rw [hk]; exact fun e => h e.symm
        rw [adjustA, if_pos hk, lookupA, if_neg hka, lookupA, if_neg hka]
      · by_cases ha : k' = a
        · rw [adjustA, if_neg hk, lookupA, if_pos ha, lookupA, if_pos ha]
        · rw [adjustA, if_neg hk, lookupA, if_neg ha, lookupA, if_neg ha, ih]

theorem lookupA_insertA_self {β : Type} (l : List (String × β)) (k : String)
    (v : β) : lookupA (insertA l k v) k = some v := by
  induction l with
  | nil => simp [insertA, lookupA]
  | cons p rest ih =>
      rcases p with ⟨k', v'⟩
      by_cases h : k' = k
      · rw [insertA, if_pos h, lookupA, if_pos rfl]
      · rw [insertA, if_neg h, lookupA, if_neg h, ih]

theorem lookupA_insertA_ne {β : Type} (l : List (String × β)) (k a : String)
    (v : β) (h : a ≠ k) : lookupA (insertA l k v) a = lookupA l a := by
  induction l with
  | nil =>
      have : ¬ (k = a) := fun e => h e.symm
      simp [insertA, lookupA, this]
  | cons p rest ih =>
      rcases p with ⟨k', v'⟩
      by_cases hk : k' = k
      · have hka : ¬ (k = a) := fun e => h e.symm
        have hk'a : ¬ (k' = a) := by rw [hk]; exact hka
        rw [insertA, if_pos hk, lookupA, if_neg hka, lookupA, if_neg hk'a]
      · by_cases ha : k' = a
        · rw [insertA, if_neg hk, lookupA, if_pos ha, lookupA, if_pos ha]
        · rw [insertA, if_neg hk, lookupA, if_neg ha, lookupA, if_neg ha, ih]

theorem lookupA_isSome_iff_mem_keys {β : Type} (l : List (String × β)) (a : String) :
    (lookupA l a).isSome ↔ a ∈ l.map Prod.fst := by
  induction l with
  | nil => simp [lookupA]
  | cons p rest ih =>
      rcases p with ⟨k', v'⟩
      by_cases h : k' = a
      · simp [lookupA, h]
      · simp [lookupA, h, ih, Ne.symm h]

/-! ## Claim C10 — stray events for unknown aliases are dropped -/

/-- C10: for every event whose alias has no `Service` entry in the registry,
or has a `Service` entry but no `Job` record, `manage_event` returns
immediately: the state (job table, service registry, watched map) is
unchanged and no effect is emitted. -/
theorem c10_manage_event_unknown_is_noop (st : orchestrate.Orchestrator)
    (ev : orchestrate.JobEvent)
    (h : lookupA st.services ev.alias_ = none ∨ lookupA st.jobs ev.alias_ = none) :
    orchestrate.manage_event st ev = (st, []) := by
  rcases h with h | h
  · simp [orchestrate.manage_event, h]
  · cases hs : lookupA st.services ev.alias_ with
    | none => simp [orchestrate.manage_event, hs]
    | some srv => simp [orchestrate.manage_event, hs, orchestrate.get_job_status, h]

/-- Witness for C10: a `Finished` event for `crash` arriving before any job
record exists leaves the freshly loaded state untouched. -/
theorem c10_witness :
    orchestrate.manage_event (orchestrate.crashInit 3)
        { alias_ := "crash", status := JobStatus.Finished 1 } =
      (orchestrate.crashInit 3, []) :=
  c10_manage_event_unknown_is_noop (orchestrate.crashInit 3)
    { alias_ := "crash", status := JobStatus.Finished 1 } (Or.inr rfl)

/-! ## Claim C5 — TimedOut emission on watcher ticks -/

/-- Counterexample to C5: a watched entry whose `previous_status` is already
`TimedOut` and whose deadline is expired emits `TimedOut` again on the next
tick — the tick at time 10 on an entry armed at 0 with a 5-tick deadline
emits `TimedOut` even though `previous_status = TimedOut`, and a further
tick emits it once more, so two consecutive `TimedOut` events are delivered
with no intervening status change. -/
theorem c5_counterexample :
    (watcher.watchStep 10 watcher.ProbeResult.stillRunning
        { process := 0, timeout := { created_at := 0, time := 5 },
          previous_status := JobStatus.TimedOut }).2 = some JobStatus.TimedOut ∧
    (watcher.watchStep 11 watcher.ProbeResult.stillRunning
        (watcher.watchStep 10 watcher.ProbeResult.stillRunning
          { process := 0, timeout := { created_at := 0, time := 5 },
            previous_status := JobStatus.TimedOut }).1).2 = some JobStatus.TimedOut := by
  constructor <;> decide

/-- C5 (amended): on every watcher tick, an entry whose deadline has expired
emits `TimedOut` unconditionally — `previous_status` is not consulted — and
records `previous_status := TimedOut`; consequently a later tick at which
the deadline is still expired emits `TimedOut` again, so consecutive
`TimedOut` events for the same entry do occur without an intervening status
change. -/
theorem c5_amended_timeout_always_reemitted (now later : Nat)
    (probe probe2 : watcher.ProbeResult) (job : watcher.WatchedJob)
    (h : job.timeout.has_timed_out now = true) (hle : now ≤ later) :
    (watcher.watchStep now probe job).2 = some JobStatus.TimedOut ∧
    (watcher.watchStep now probe job).1.previous_status = JobStatus.TimedOut ∧
    (watcher.watchStep now probe job).1.timeout = job.timeout ∧
    (watcher.watchStep later probe2 (watcher.watchStep now probe job).1).2 =
      some JobStatus.TimedOut := by
  have h2 : job.timeout.has_timed_out later = true := by
    simp only [watcher.WatchedTimeout.has_timed_out, decide_eq_true_eq] at h ⊢
    omega
  refine ⟨?_, ?_, ?_, ?_⟩ <;> simp [watcher.watchStep, h, h2]

/-- Witness for C5 (amended), at the counterexample's concrete entry and
ticks 10 and 11. -/
theorem c5_witness :
    (watcher.watchStep 10 watcher.ProbeResult.probeErr
        { process := 0, timeout := { created_at := 0, time := 5 },
          previous_status := JobStatus.Running true }).2 = some JobStatus.TimedOut ∧
    (watcher.watchStep 10 watcher.ProbeResult.probeErr
        { process := 0, timeout := { created_at := 0, time := 5 },
          previous_status := JobStatus.Running true }).1.previous_status =
      JobStatus.TimedOut ∧
    (watcher.watchStep 10 watcher.ProbeResult.probeErr
        { process := 0, timeout := { created_at := 0, time := 5 },
          previous_status := JobStatus.Running true }).1.timeout =
      { created_at := 0, time := 5 } ∧
    (watcher.watchStep 11 watcher.ProbeResult.stillRunning
        (watcher.watchStep 10 watcher.ProbeResult.probeErr
          { process := 0, timeout := { created_at := 0, time := 5 },
            previous_status := JobStatus.Running true }).1).2 =
      some JobStatus.TimedOut :=
  c5_amended_timeout_always_reemitted 10 11 watcher.ProbeResult.probeErr
    watcher.ProbeResult.stillRunning
    { process := 0, timeout := { created_at := 0, time := 5 },
      previous_status := JobStatus.Running true } (by decide) (by decide)

/-! ## Claim C3 — rejected Stop requests -/

/-- Counterexample to C3: stopping the finished `demo` job is rejected with
`ServiceStopped`, as claimed, but the rejected request does **not** leave the
job's status unchanged — `stop_request` sets it to `Stopping`
unconditionally. -/
theorem c3_counterexample :
    (jobs.stop_request jobs.demoFinishedState "demo").2.2 =
      Except.error OrchestratorError.ServiceStopped ∧
    (lookupA (jobs.stop_request jobs.demoFinishedState "demo").1.jobs "demo").map
        jobs.Job.status = some JobStatus.Stopping ∧
    (lookupA jobs.demoFinishedState.jobs "demo").map jobs.Job.status =
      some (JobStatus.Finished 0) ∧
    some JobStatus.Stopping ≠ some (JobStatus.Finished 0) :=
  ⟨rfl, rfl, rfl, by decide⟩

/-- C3 (amended): for every alias whose job status is not `Starting` and not
`Running(·)`, a Stop request is rejected — `ServiceAlreadyStopping` when the
status is `Stopping` or `TimedOut`, `ServiceStopped` when it is `Finished(c)`
or `Created` — and no stop signal is sent (no effect is emitted, and the
watched map and service registry are untouched); however the rejected request
sets the job's status to `Stopping` unconditionally rather than leaving it
unchanged. -/
theorem c3_amended_stop_request_rejected (st : jobs.Orchestrator) (a : String)
    (job : jobs.Job) (hj : lookupA st.jobs a = some job)
    (h : job.status = JobStatus.Stopping ∨ job.status = JobStatus.TimedOut ∨
      job.status = JobStatus.Created ∨ ∃ c, job.status = JobStatus.Finished c) :
    (jobs.stop_request st a).2.1 = [] ∧
    ((job.status = JobStatus.Stopping ∨ job.status = JobStatus.TimedOut) →
      (jobs.stop_request st a).2.2 =
        Except.error OrchestratorError.ServiceAlreadyStopping) ∧
    ((job.status = JobStatus.Created ∨ ∃ c, job.status = JobStatus.Finished c) →
      (jobs.stop_request st a).2.2 = Except.error OrchestratorError.ServiceStopped) ∧
    (lookupA (jobs.stop_request st a).1.jobs a).map jobs.Job.status =
      some JobStatus.Stopping ∧
    (jobs.stop_request st a).1.watched = st.watched ∧
    (jobs.stop_request st a).1.services = st.services := by
  rcases h with h | h | h | ⟨c, h⟩ <;>
    simp [jobs.stop_request, hj, h, lookupA_adjustA_self]

/-- Witness for C3 (amended): the finished `demo` job's Stop is rejected with
`ServiceStopped`. -/
theorem c3_witness :
    (jobs.stop_request jobs.demoFinishedState "demo").2.2 =
      Except.error OrchestratorError.ServiceStopped :=
  (c3_amended_stop_request_rejected jobs.demoFinishedState "demo"
      { status := JobStatus.Finished 0, retries := 0, last_exit_code := 0 }
      (by decide) (Or.inr (Or.inr (Or.inr ⟨0, rfl⟩)))).2.2.1 (Or.inr ⟨0, rfl⟩)

/-! ## Claim C4 — rejected Start requests -/

/-- Counterexample to C4: starting the already-running `demo` job is rejected
with `ServiceAlreadyStarted` and spawns nothing, as claimed, but the rejected
request does **not** leave the job's status unchanged — `start_request` sets
it to `Starting` unconditionally. -/
theorem c4_counterexample :
    (jobs.start_request jobs.demoRunningState "demo").2.2 =
      Except.error OrchestratorError.ServiceAlreadyStarted ∧
    (jobs.start_request jobs.demoRunningState "demo").2.1 = [] ∧
    (lookupA (jobs.start_request jobs.demoRunningState "demo").1.jobs "demo").map
        jobs.Job.status = some JobStatus.Starting ∧
    (lookupA jobs.demoRunningState.jobs "demo").map jobs.Job.status =
      some (JobStatus.Running true) ∧
    some JobStatus.Starting ≠ some (JobStatus.Running true) :=
  ⟨rfl, rfl, rfl, rfl, by decide⟩

/-- C4 (amended): for every alias whose job status is `Starting`, `Running(·)`,
`Stopping` or `TimedOut`, a Start request is rejected with
`ServiceAlreadyStarted` and no new process is spawned (no effect is emitted,
and the watched map and service registry are untouched); however the rejected
request sets the job's status to `Starting` unconditionally rather than
leaving it unchanged. -/
theorem c4_amended_start_request_rejected (st : jobs.Orchestrator) (a : String)
    (job : jobs.Job) (hj : lookupA st.jobs a = some job)
    (h : job.status = JobStatus.Starting ∨ (∃ b, job.status = JobStatus.Running b) ∨
      job.status = JobStatus.Stopping ∨ job.status = JobStatus.TimedOut) :
    (jobs.start_request st a).2.2 =
      Except.error OrchestratorError.ServiceAlreadyStarted ∧
    (jobs.start_request st a).2.1 = [] ∧
    (lookupA (jobs.start_request st a).1.jobs a).map jobs.Job.status =
      some JobStatus.Starting ∧
    (jobs.start_request st a).1.watched = st.watched ∧
    (jobs.start_request st a).1.services = st.services := by
  rcases h with h | ⟨b, h⟩ | h | h <;>
    simp [jobs.start_request, jobs.create_job, hj, h, lookupA_adjustA_self]

/-- Witness for C4 (amended): starting the running `demo` job is rejected and
its status forced to `Starting`. -/
theorem c4_witness :
    (jobs.start_request jobs.demoRunningState "demo").2.2 =
      Except.error OrchestratorError.ServiceAlreadyStarted ∧
    (lookupA (jobs.start_request jobs.demoRunningState "demo").1.jobs "demo").map
        jobs.Job.status = some JobStatus.Starting :=
  have h := c4_amended_start_request_rejected jobs.demoRunningState "demo"
    { status := JobStatus.Running true, retries := 2, last_exit_code := 0 }
    (by decide) (Or.inr (Or.inl ⟨true, rfl⟩))
  ⟨h.1, h.2.2.1⟩

/-! ## Claim C8 — StartForwarding conflict handling -/

/-- C8: a `StartForwarding` request replies `JobNotFound` and changes nothing
when the alias has no `TeeState`; replies `JobAlreadyAttached` and keeps the
existing channels when a forwarding channel is already set; and otherwise
replies `Ok` and installs the supplied stdout and stderr channels — other
aliases are never touched, so at most one forwarder per stream per alias
exists. -/
theorem c8_start_forwarding (ios : List (String × io_router.Tee)) (a : String)
    (stdout_channel stderr_channel : Nat) :
    (lookupA ios a = none →
      io_router.routeStartForwarding ios a stdout_channel stderr_channel =
        (ios, Except.error OrchestratorError.JobNotFound)) ∧
    (∀ tee, lookupA ios a = some tee → tee.stdout.tx.isSome →
      io_router.routeStartForwarding ios a stdout_channel stderr_channel =
        (ios, Except.error OrchestratorError.JobAlreadyAttached)) ∧
    (∀ tee, lookupA ios a = some tee → tee.stdout.tx = none →
      (io_router.routeStartForwarding ios a stdout_channel stderr_channel).2 =
        Except.ok () ∧
      lookupA (io_router.routeStartForwarding ios a stdout_channel stderr_channel).1 a =
        some { tee with
            stdout := { tee.stdout with tx := some stdout_channel },
            stderr := { tee.stderr with tx := some stderr_channel } } ∧
      ∀ b, b ≠ a →
        lookupA (io_router.routeStartForwarding ios a stdout_channel stderr_channel).1 b =
          lookupA ios b) := by
  refine ⟨?_, ?_, ?_⟩
  · intro h
    simp [io_router.routeStartForwarding, h]
  · intro tee ht hx
    simp [io_router.routeStartForwarding, ht, hx]
  · intro tee ht hx
    refine ⟨?_, ?_, ?_⟩
    · simp [io_router.routeStartForwarding, ht, hx]
    · simp [io_router.routeStartForwarding, ht, hx, lookupA_adjustA_self]
    · intro b hb
      simp [io_router.routeStartForwarding, ht, hx, lookupA_adjustA_ne _ _ _ _ hb]

/-- Witness for C8: attaching to a free `Tee` succeeds and installs the two
channels; the state has one entry for alias `demo` with no forwarder set. -/
theorem c8_witness :
    (io_router.routeStartForwarding
        [("demo",
          { stdout := { def_stdout := none, tx := none, buff := [[104, 105]] },
            stderr := { def_stderr := none, tx := none, buff := [] } })]
        "demo" 7 8).2 = Except.ok () ∧
    lookupA (io_router.routeStartForwarding
        [("demo",
          { stdout := { def_stdout := none, tx := none, buff := [[104, 105]] },
            stderr := { def_stderr := none, tx := none, buff := [] } })]
        "demo" 7 8).1 "demo" =
      some { stdout := { def_stdout := none, tx := some 7, buff := [[104, 105]] },
             stderr := { def_stderr := none, tx := some 8, buff := [] } } :=
  have h := (c8_start_forwarding
      [("demo",
        { stdout := { def_stdout := none, tx := none, buff := [[104, 105]] },
          stderr := { def_stderr := none, tx := none, buff := [] } })]
      "demo" 7 8).2.2
      { stdout := { def_stdout := none, tx := none, buff := [[104, 105]] },
        stderr := { def_stderr := none, tx := none, buff := [] } }
      (by decide) rfl
  ⟨h.1, h.2.1⟩

/-! ## Claim C9 — ReadBuff snapshots and their truncation -/

/-- C9: for an alias with a `TeeState`, a `ReadBuff` request replies with the
concatenation of all retained stdout slices and, separately, all retained
stderr slices; the consumer `read_buff` keeps only the suffix
`buf[len − 512 ..]` of each concatenation — a suffix of length
`min 512 len`, which is the whole concatenation when it is no longer than
512 bytes. -/
theorem flatMap_id_eq_flatten (l : List (List Nat)) :
    l.flatMap (fun elem => elem) = l.flatten := by
  induction l with
  | nil => rfl
  | cons x xs ih => simp [ih]

theorem c9_read_buff (ios : List (String × io_router.Tee)) (a : String)
    (tee : io_router.Tee) (h : lookupA ios a = some tee) :
    io_router.routeReadBuff ios a =
      (tee.stdout.buff.flatten, tee.stderr.buff.flatten) ∧
    (∀ buf : List Nat, io_router.read_buff_keep buf <:+ buf) ∧
    (∀ buf : List Nat, (io_router.read_buff_keep buf).length = min 512 buf.length) ∧
    (∀ buf : List Nat, buf.length ≤ 512 → io_router.read_buff_keep buf = buf) := by
  refine ⟨?_, ?_, ?_, ?_⟩
  · simp [io_router.routeReadBuff, h, flatMap_id_eq_flatten]
  · intro buf
    exact List.drop_suffix _ _
  · intro buf
    simp [io_router.read_buff_keep]
    omega
  · intro buf hle
    simp [io_router.read_buff_keep, Nat.sub_eq_zero_of_le hle]

/-- Witness for C9: a two-slice stdout buffer is returned concatenated, and a
short concatenation is kept whole. -/
theorem c9_witness :
    io_router.routeReadBuff
        [("demo",
          { stdout := { def_stdout := none, tx := none, buff := [[1, 2], [3]] },
            stderr := { def_stderr := none, tx := none, buff := [[4]] } })]
        "demo" = ([1, 2, 3], [4]) ∧
    io_router.read_buff_keep [1, 2, 3] = [1, 2, 3] :=
  have h := c9_read_buff
      [("demo",
        { stdout := { def_stdout := none, tx := none, buff := [[1, 2], [3]] },
          stderr := { def_stderr := none, tx := none, buff := [[4]] } })]
      "demo"
      { stdout := { def_stdout := none, tx := none, buff := [[1, 2], [3]] },
        stderr := { def_stderr := none, tx := none, buff := [[4]] } }
      (by decide)
  ⟨h.1, h.2.2.2 [1, 2, 3] (by decide)⟩

/-! ## Claim C2 — OnError with an expected exit code -/

/-- Counterexample to C2: in the `ok_exit` scenario (`restart=OnError(5)`,
`exit_codes=[0]`, command exits 0) exactly one `Finished(0)` is observed and
no restart happens, as claimed, but the job record ends with `retries = 1`,
not `retries = 0`: `inc_job_retries` runs before the expected-exit-code check
in `manage_event`. -/
theorem c2_counterexample :
    (orchestrate.okExitRun 4).2.1 = 1 ∧
    (orchestrate.okExitRun 4).2.2 = 1 ∧
    (lookupA (orchestrate.okExitRun 4).1.jobs "ok_exit").map orchestrate.Job.retries =
      some 1 ∧
    ¬ (lookupA (orchestrate.okExitRun 4).1.jobs "ok_exit").map orchestrate.Job.retries =
      some 0 := by
  refine ⟨?_, ?_, ?_, ?_⟩ <;> decide

/-- C2 (amended): for a job whose service has `restart=OnError(max)`, when a
`Finished(c)` event arrives (previous status not `Stopping`) and `c` is in
the service's `exit_codes` set, no restart is performed — but `retries` is
still incremented, because the increment precedes the expected-code check;
for the `ok_exit` scenario exactly one `Finished(0)` is observed and the job
ends with `retries = 1`. -/
theorem c2_amended_onerror_expected_code (st : orchestrate.Orchestrator) (a : String)
    (srv : Service) (job : orchestrate.Job) (c : Int) (max : Nat)
    (hs : lookupA st.services a = some srv)
    (hj : lookupA st.jobs a = some job)
    (hrestart : srv.restart = RestartOptions.OnError max)
    (hprev : job.status ≠ JobStatus.Stopping)
    (hvalid : srv.validate_exit_code c = true) :
    ((orchestrate.manage_event st { alias_ := a, status := JobStatus.Finished c }).2 =
      [Effect.stopForwardingFx a, Effect.removeIoFx a] ∧
    lookupA (orchestrate.manage_event st
        { alias_ := a, status := JobStatus.Finished c }).1.jobs a =
      some { job with status := JobStatus.Finished c,
                      retries := (job.retries + 1) % 256 } ∧
    (orchestrate.manage_event st
        { alias_ := a, status := JobStatus.Finished c }).1.watched =
      eraseA st.watched a ∧
    (orchestrate.manage_event st
        { alias_ := a, status := JobStatus.Finished c }).1.services = st.services) ∧
    ((orchestrate.okExitRun 4).2 = (1, 1) ∧
    (lookupA (orchestrate.okExitRun 4).1.jobs "ok_exit").map orchestrate.Job.retries =
      some 1) := by
  constructor
  · have hstat : orchestrate.get_job_status st a = some job.status := by
      simp [orchestrate.get_job_status, hj]
    refine ⟨?_, ?_, ?_, ?_⟩ <;>
      simp [orchestrate.manage_event, hs, hstat, hrestart, hprev, hvalid,
        orchestrate.remove_watched, orchestrate.inc_job_retries, hj,
        lookupA_adjustA_self]
  · exact ⟨by decide, by decide⟩

/-- Witness for C2 (amended), at the `ok_exit` state right after the spawn:
the `Finished(0)` event increments `retries` to 1 and removes the watched
entry without restarting. -/
theorem c2_witness :
    (orchestrate.manage_event (orchestrate.start_request orchestrate.okExitInit "ok_exit").1
        { alias_ := "ok_exit", status := JobStatus.Finished 0 }).2 =
      [Effect.stopForwardingFx "ok_exit", Effect.removeIoFx "ok_exit"] ∧
    lookupA (orchestrate.manage_event
        (orchestrate.start_request orchestrate.okExitInit "ok_exit").1
        { alias_ := "ok_exit", status := JobStatus.Finished 0 }).1.jobs "ok_exit" =
      some { status := JobStatus.Finished 0, retries := 1, last_exit_code := 0,
             flags := {}, started := some "now" } :=
  have h := (c2_amended_onerror_expected_code
      (orchestrate.start_request orchestrate.okExitInit "ok_exit").1 "ok_exit"
      orchestrate.okExitService
      { status := JobStatus.Starting, retries := 0, last_exit_code := 0,
        flags := {}, started := some "now" }
      0 5 (by decide) (by decide) rfl (by decide) (by decide)).1
  ⟨h.1, h.2.1⟩

/-! ## Claim C6 — TimedOut events in `manage_event` -/

/-- C6: when the orchestrator processes a `TimedOut` event for an alias with
an existing job and service: if the job's status is `Starting` or
`Running(·)`, the status becomes `Running(true)` and the watched timeouts are
cleared; if it is `TimedOut` or `Stopping`, `SIGKILL` is sent to every
watched pid, a fresh stop-wait deadline is armed, and the status becomes
`Stopping`; for any other status the job's status becomes `TimedOut`. -/
theorem c6_timeout_event (st : orchestrate.Orchestrator) (a : String)
    (srv : Service) (job : orchestrate.Job)
    (hs : lookupA st.services a = some srv)
    (hj : lookupA st.jobs a = some job) :
    ((job.status = JobStatus.Starting ∨ ∃ b, job.status = JobStatus.Running b) →
      (orchestrate.manage_event st { alias_ := a, status := JobStatus.TimedOut }).2 = [] ∧
      lookupA (orchestrate.manage_event st
          { alias_ := a, status := JobStatus.TimedOut }).1.jobs a =
        some { job with status := JobStatus.Running true } ∧
      lookupA (orchestrate.manage_event st
          { alias_ := a, status := JobStatus.TimedOut }).1.watched a =
        (lookupA st.watched a).map
          (List.map (fun w => { w with timeout := none })) ∧
      (orchestrate.manage_event st
          { alias_ := a, status := JobStatus.TimedOut }).1.services = st.services) ∧
    ((job.status = JobStatus.TimedOut ∨ job.status = JobStatus.Stopping) →
      ∀ ws, lookupA st.watched a = some ws →
        (orchestrate.manage_event st { alias_ := a, status := JobStatus.TimedOut }).2 =
          ws.map (fun w => Effect.killFx w.process SIGKILL) ∧
        lookupA (orchestrate.manage_event st
            { alias_ := a, status := JobStatus.TimedOut }).1.watched a =
          some (ws.map (fun w => { w with timeout := some srv.stop_wait })) ∧
        lookupA (orchestrate.manage_event st
            { alias_ := a, status := JobStatus.TimedOut }).1.jobs a =
          some { job with status := JobStatus.Stopping } ∧
        (orchestrate.manage_event st
            { alias_ := a, status := JobStatus.TimedOut }).1.services = st.services) ∧
    ((job.status = JobStatus.Created ∨ ∃ c, job.status = JobStatus.Finished c) →
      (orchestrate.manage_event st { alias_ := a, status := JobStatus.TimedOut }).2 = [] ∧
      lookupA (orchestrate.manage_event st
          { alias_ := a, status := JobStatus.TimedOut }).1.jobs a =
        some { job with status := JobStatus.TimedOut } ∧
      (orchestrate.manage_event st
          { alias_ := a, status := JobStatus.TimedOut }).1.watched = st.watched ∧
      (orchestrate.manage_event st
          { alias_ := a, status := JobStatus.TimedOut }).1.services = st.services) := by
  have hstat : orchestrate.get_job_status st a = some job.status := by
    simp [orchestrate.get_job_status, hj]
  refine ⟨?_, ?_, ?_⟩
  · rintro (h | ⟨b, h⟩) <;>
      refine ⟨?_, ?_, ?_, ?_⟩ <;>
        simp [orchestrate.manage_event, hs, hstat, h,
          orchestrate.remove_watched_timeout, hj, lookupA_adjustA_self]
  · rintro (h | h) ws hws <;>
      refine ⟨?_, ?_, ?_, ?_⟩ <;>
        simp [orchestrate.manage_event, hs, hstat, h, orchestrate.kill_job, hws,
          hj, lookupA_adjustA_self]
  · rintro (h | ⟨c, h⟩) <;>
      refine ⟨?_, ?_, ?_, ?_⟩ <;>
        simp [orchestrate.manage_event, hs, hstat, h, hj, lookupA_adjustA_self]

/-- Witness for C6: a `TimedOut` event on a stopping `demo` job with one
watched pid 42 sends `SIGKILL` to 42, re-arms the 4-second stop-wait
deadline, and keeps the status `Stopping`. -/
theorem c6_witness :
    (orchestrate.manage_event
        { services := [("demo", demoService)],
          jobs := [("demo",
            { status := JobStatus.Stopping, retries := 0, last_exit_code := 0,
              flags := {}, started := some "now" })],
          watched := [("demo",
            [{ process := 42, previous_status := JobStatus.TimedOut,
               timeout := some 5 }])] }
        { alias_ := "demo", status := JobStatus.TimedOut }).2 =
      [Effect.killFx 42 SIGKILL] ∧
    lookupA (orchestrate.manage_event
        { services := [("demo", demoService)],
          jobs := [("demo",
            { status := JobStatus.Stopping, retries := 0, last_exit_code := 0,
              flags := {}, started := some "now" })],
          watched := [("demo",
            [{ process := 42, previous_status := JobStatus.TimedOut,
               timeout := some 5 }])] }
        { alias_ := "demo", status := JobStatus.TimedOut }).1.watched "demo" =
      some [{ process := 42, previous_status := JobStatus.TimedOut,
              timeout := some 4 }] :=
  have h := (c6_timeout_event
      { services := [("demo", demoService)],
        jobs := [("demo",
          { status := JobStatus.Stopping, retries := 0, last_exit_code := 0,
            flags := {}, started := some "now" })],
        watched := [("demo",
          [{ process := 42, previous_status := JobStatus.TimedOut,
             timeout := some 5 }])] }
      "demo" demoService
      { status := JobStatus.Stopping, retries := 0, last_exit_code := 0,
        flags := {}, started := some "now" }
      (by decide) (by decide)).2.1 (Or.inr rfl)
      [{ process := 42, previous_status := JobStatus.TimedOut, timeout := some 5 }]
      (by decide)
  ⟨h.1, h.2.1⟩

/-! ## Claim C7 — the Reload diff -/

theorem updateLoop_cons_some (k : String) (s s0 : Service)
    (rest old : List (String × Service)) (hk : lookupA old k = some s0) :
    updateLoop ((k, s) :: rest) old =
      ((if s0 ≠ s then
          ServiceAction.Restart k :: (updateLoop rest (eraseA old k)).1
        else (updateLoop rest (eraseA old k)).1),
        (updateLoop rest (eraseA old k)).2) := by
  simp only [updateLoop, hk]

theorem updateLoop_cons_none (k : String) (s : Service)
    (rest old : List (String × Service)) (hk : lookupA old k = none) :
    updateLoop ((k, s) :: rest) old = updateLoop rest old := by
  simp only [updateLoop, hk]

theorem updateLoop_acts_restart (news : List (String × Service)) :
    ∀ (old : List (String × Service)) (x : ServiceAction),
    x ∈ (updateLoop news old).1 → ∃ b, x = ServiceAction.Restart b := by
  induction news with
  | nil => intro old x hx; simp [updateLoop] at hx
  | cons p rest ih =>
      intro old x hx
      rcases p with ⟨k, s⟩
      cases hk : lookupA old k with
      | none =>
          rw [updateLoop_cons_none k s rest old hk] at hx
          exact ih old x hx
      | some s0 =>
          rw [updateLoop_cons_some k s s0 rest old hk] at hx
          by_cases hne : s0 ≠ s
          · rw [if_pos hne] at hx
            rcases List.mem_cons.mp hx with h | h
            · exact ⟨k, h⟩
            · exact ih (eraseA old k) x h
          · rw [if_neg hne] at hx
            exact ih (eraseA old k) x hx

theorem restart_mem_updateLoop (news : List (String × Service)) :
    ∀ (old : List (String × Service)) (a : String),
    ServiceAction.Restart a ∈ (updateLoop news old).1 ↔
      ∃ s s', lookupA news a = some s ∧ lookupA old a = some s' ∧ s' ≠ s := by
  induction news with
  | nil => intro old a; simp [updateLoop, lookupA]
  | cons p rest ih =>
      intro old a
      rcases p with ⟨k, s⟩
      cases hk : lookupA old k with
      | none =>
          rw [updateLoop_cons_none k s rest old hk]
          by_cases ha : k = a
          · subst ha
            simp [ih, lookupA, hk]
          · simp [ih, lookupA, ha]
      | some s0 =>
          rw [updateLoop_cons_some k s s0 rest old hk]
          by_cases ha : k = a
          · subst ha
            by_cases hne : s0 ≠ s
            · rw [if_pos hne]
              constructor
              · intro _
                exact ⟨s, s0, by simp [lookupA], hk, hne⟩
              · intro _
                exact List.mem_cons_self _ _
            · rw [if_neg hne]
              have heq : s0 = s := not_not.mp hne
              rw [ih (eraseA old k) k]
              constructor
              · rintro ⟨s1, s', h1, h2, hne2⟩
                rw [lookupA_eraseA_self] at h2
                exact Option.noConfusion h2
              · rintro ⟨s1, s', h1, h2, hne2⟩
                rw [hk] at h2
                simp only [lookupA, if_pos rfl] at h1
                exact (hne2 ((Option.some.inj h2).symm.trans
                  (heq.trans (Option.some.inj h1)))).elim
          · have hres : ¬ (ServiceAction.Restart a = ServiceAction.Restart k) := by
              simp [Ne.symm ha]
            have herase := lookupA_eraseA_ne old k a (Ne.symm ha)
            by_cases hne : s0 ≠ s
            · rw [if_pos hne]
              have hmem : (ServiceAction.Restart a ∈
                  ServiceAction.Restart k :: (updateLoop rest (eraseA old k)).1) ↔
                  ServiceAction.Restart a ∈ (updateLoop rest (eraseA old k)).1 := by
                simp [hres]
              rw [hmem, ih (eraseA old k) a]
              simp [lookupA, ha, herase]
            · rw [if_neg hne, ih (eraseA old k) a]
              simp [lookupA, ha, herase]

theorem rem_lookup_updateLoop (news : List (String × Service)) :
    ∀ (old : List (String × Service)) (a : String),
    lookupA (updateLoop news old).2 a =
      if (lookupA news a).isSome then none else lookupA old a := by
  induction news with
  | nil => intro old a; simp [updateLoop, lookupA]
  | cons p rest ih =>
      intro old a
      rcases p with ⟨k, s⟩
      cases hk : lookupA old k with
      | none =>
          rw [updateLoop_cons_none k s rest old hk, ih old a]
          by_cases ha : k = a
          · subst ha
            simp [lookupA, hk]
          · simp [lookupA, ha]
      | some s0 =>
          rw [updateLoop_cons_some k s s0 rest old hk]
          have h2 : (updateLoop ((k, s) :: rest) old).2 =
              (updateLoop rest (eraseA old k)).2 := by
            rw [updateLoop_cons_some k s s0 rest old hk]
          rw [ih (eraseA old k) a]
          by_cases ha : k = a
          · subst ha
            simp [lookupA, lookupA_eraseA_self]
          · simp [lookupA, ha, lookupA_eraseA_ne old k a (Ne.symm ha)]

theorem stop_not_in_acts (news old : List (String × Service)) (a : String) :
    ServiceAction.Stop a ∉ (updateLoop news old).1 := by
  intro h
  rcases updateLoop_acts_restart news old _ h with ⟨b, hb⟩
  exact ServiceAction.noConfusion hb

/-- C7: the Reload diff produces exactly a `Restart` for each alias present
in both registries whose definitions differ and a `Stop` for each alias
present only in the old registry; aliases present in both with identical
definitions, and aliases present only in the new registry, produce no action
(no auto-start); reloading an unchanged registry yields an empty action
list. -/
theorem c7_reload_diff (old news : List (String × Service)) :
    (∀ a, ServiceAction.Restart a ∈ (Services.update old news).1 ↔
      ∃ s s', lookupA news a = some s ∧ lookupA old a = some s' ∧ s' ≠ s) ∧
    (∀ a, ServiceAction.Stop a ∈ (Services.update old news).1 ↔
      ((lookupA old a).isSome ∧ lookupA news a = none)) ∧
    (∀ x, x ∈ (Services.update old news).1 →
      (∃ b, x = ServiceAction.Restart b) ∨ (∃ b, x = ServiceAction.Stop b)) ∧
    (Services.update old old).1 = [] := by
  have hstopIff : ∀ (news2 : List (String × Service)) (a : String),
      ServiceAction.Stop a ∈ (Services.update old news2).1 ↔
        ((lookupA old a).isSome ∧ lookupA news2 a = none) := by
    intro news2 a
    rw [Services.update]
    simp only [List.mem_append]
    constructor
    · rintro (h | h)
      · exact (stop_not_in_acts news2 old a h).elim
      · rcases List.mem_map.mp h with ⟨p, hp, he⟩
        have ha : p.1 = a := by cases he; rfl
        subst ha
        have hmem : p.1 ∈ (updateLoop news2 old).2.map Prod.fst :=
          List.mem_map.mpr ⟨p, hp, rfl⟩
        have hsome := (lookupA_isSome_iff_mem_keys _ _).mpr hmem
        rw [rem_lookup_updateLoop news2 old p.1] at hsome
        by_cases hn : (lookupA news2 p.1).isSome
        · rw [if_pos hn] at hsome
          simp at hsome
        · rw [if_neg hn] at hsome
          exact ⟨hsome, Option.not_isSome_iff_eq_none.mp hn⟩
    · rintro ⟨hold, hnew⟩
      refine Or.inr ?_
      have hsome : (lookupA (updateLoop news2 old).2 a).isSome := by
        rw [rem_lookup_updateLoop news2 old a, hnew]
        simpa using hold
      have hmem := (lookupA_isSome_iff_mem_keys _ _).mp hsome
      rcases List.mem_map.mp hmem with ⟨p, hp, hfst⟩
      exact List.mem_map.mpr ⟨p, hp, by rw [hfst]⟩
  have hrestartIff : ∀ a, ServiceAction.Restart a ∈ (Services.update old news).1 ↔
      ∃ s s', lookupA news a = some s ∧ lookupA old a = some s' ∧ s' ≠ s := by
    intro a
    rw [Services.update]
    simp only [List.mem_append]
    constructor
    · rintro (h | h)
      · exact (restart_mem_updateLoop news old a).mp h
      · rcases List.mem_map.mp h with ⟨p, _, hp⟩
        exact ServiceAction.noConfusion hp
    · intro h
      exact Or.inl ((restart_mem_updateLoop news old a).mpr h)
  refine ⟨hrestartIff, hstopIff news, ?_, ?_⟩
  · intro x hx
    rw [Services.update] at hx
    rcases List.mem_append.mp hx with h | h
    · exact Or.inl (updateLoop_acts_restart news old x h)
    · rcases List.mem_map.mp h with ⟨p, _, hp⟩
      exact Or.inr ⟨p.1, hp.symm⟩
  · rw [List.eq_nil_iff_forall_not_mem]
    intro x hx
    have hshape : (∃ b, x = ServiceAction.Restart b) ∨ (∃ b, x = ServiceAction.Stop b) := by
      rw [Services.update] at hx
      rcases List.mem_append.mp hx with h | h
      · exact Or.inl (updateLoop_acts_restart old old x h)
      · rcases List.mem_map.mp h with ⟨p, _, hp⟩
        exact Or.inr ⟨p.1, hp.symm⟩
    rcases hshape with ⟨b, hb⟩ | ⟨b, hb⟩
    · subst hb
      rw [Services.update] at hx
      rcases List.mem_append.mp hx with hm | hm
      · rcases (restart_mem_updateLoop old old b).mp hm with ⟨s, s', h1, h2, hne⟩
        rw [h1] at h2
        exact hne (Option.some.inj h2).symm
      · rcases List.mem_map.mp hm with ⟨p, _, hp⟩
        exact ServiceAction.noConfusion hp
    · subst hb
      rcases (hstopIff old b).mp hx with ⟨hold, hnew⟩
      rw [hnew] at hold
      simp at hold

/-- Witness for C7: with an old registry `a, b` and a new registry where `a`
changed and `b` disappeared, the diff restarts `a` and stops `b`; an
unchanged registry produces no action. -/
theorem c7_witness :
    ServiceAction.Restart "a" ∈
      (Services.update [("a", demoService), ("b", demoService)]
        [("a", orchestrate.crashService 3)]).1 ∧
    ServiceAction.Stop "b" ∈
      (Services.update [("a", demoService), ("b", demoService)]
        [("a", orchestrate.crashService 3)]).1 ∧
    (Services.update [("a", demoService), ("b", demoService)]
      [("a", demoService), ("b", demoService)]).1 = [] :=
  have h := c7_reload_diff [("a", demoService), ("b", demoService)]
    [("a", orchestrate.crashService 3)]
  ⟨(h.1 "a").mpr ⟨orchestrate.crashService 3, demoService, by decide, by decide,
      by decide⟩,
    (h.2.1 "b").mpr ⟨by decide, by decide⟩,
    h.2.2.2⟩

/-! ## Claim C1 — restart=Always(max) retry ceiling -/

theorem spin_stopped (a : String) (c : Int) (fuel : Nat)
    (st : orchestrate.Orchestrator) (h : lookupA st.watched a = none) :
    orchestrate.spinFinished a c fuel st = (st, 0, 0) := by
  cases fuel with
  | zero => rfl
  | succ fuel => simp [orchestrate.spinFinished, h]

theorem crash_round (max r : Nat) (lec : Int) (hlt : r + 1 < 256) (hmax : r < max) :
    orchestrate.manage_event (orchestrate.crashState max r lec)
        { alias_ := "crash", status := JobStatus.Finished 1 } =
      if r + 1 < max then
        (orchestrate.crashState max (r + 1) 1,
          [Effect.stopForwardingFx "crash", Effect.removeIoFx "crash",
            Effect.spawnFx "crash", Effect.createIoFx "crash"])
      else
        (orchestrate.crashFinal max lec,
          [Effect.stopForwardingFx "crash", Effect.removeIoFx "crash"]) := by
  by_cases hr : r + 1 < max
  · rw [if_pos hr]
    simp [orchestrate.manage_event, orchestrate.get_job_status,
      orchestrate.crashState, orchestrate.crashService, orchestrate.remove_watched,
      orchestrate.inc_job_retries, orchestrate.start_request,
      orchestrate.crashFinal, lookupA, eraseA, adjustA, insertA, insertNewA,
      Nat.mod_eq_of_lt hlt, hr]
  · rw [if_neg hr]
    have heq : r + 1 = max := by omega
    subst heq
    simp [orchestrate.manage_event, orchestrate.get_job_status,
      orchestrate.crashState, orchestrate.crashService, orchestrate.remove_watched,
      orchestrate.inc_job_retries, orchestrate.start_request,
      orchestrate.crashFinal, lookupA, eraseA, adjustA, insertA, insertNewA,
      Nat.mod_eq_of_lt hlt]

theorem spin_crash (fuel : Nat) : ∀ (max r : Nat) (lec : Int),
    r < max → max ≤ 255 → max - r ≤ fuel →
    orchestrate.spinFinished "crash" 1 fuel (orchestrate.crashState max r lec) =
      (orchestrate.crashFinal max (if r + 1 < max then 1 else lec),
        max - r, max - r - 1) := by
  induction fuel with
  | zero =>
      intro max r lec h1 h2 h3
      omega
  | succ fuel ih =>
      intro max r lec h1 h2 h3
      have hw : (lookupA (orchestrate.crashState max r lec).watched "crash").isSome := by
        simp [orchestrate.crashState, lookupA]
      rw [orchestrate.spinFinished, if_pos hw,
        crash_round max r lec (by omega) h1]
      by_cases hr : r + 1 < max
      · rw [if_pos hr, if_pos hr]
        dsimp only
        rw [ih max (r + 1) 1 hr h2 (by omega)]
        have hone : (if r + 1 + 1 < max then (1 : Int) else 1) = 1 := ite_self 1
        rw [hone]
        have hc : orchestrate.countSpawns
            [Effect.stopForwardingFx "crash", Effect.removeIoFx "crash",
              Effect.spawnFx "crash", Effect.createIoFx "crash"] = 1 := rfl
        rw [hc]
        refine congrArg₂ Prod.mk rfl (congrArg₂ Prod.mk ?_ ?_) <;>
          (dsimp only; omega)
      · rw [if_neg hr, if_neg hr]
        have hnone : lookupA (orchestrate.crashFinal max lec).watched "crash" = none := by
          simp [orchestrate.crashFinal, lookupA]
        dsimp only
        rw [spin_stopped "crash" 1 fuel _ hnone]
        have hc : orchestrate.countSpawns
            [Effect.stopForwardingFx "crash", Effect.removeIoFx "crash"] = 0 := rfl
        rw [hc]
        refine congrArg₂ Prod.mk rfl (congrArg₂ Prod.mk ?_ ?_) <;>
          (dsimp only; omega)

/-- Counterexample to C1: in the `crash` scenario (`restart=Always(3)`,
command always exits 1) the driver observes 3 Finished events and 3 spawns
in total — not the 4 the claim states — because `inc_job_retries` increments
before the `current_retries < max` comparison; the job does end with
`retries = 3` and status `Finished(1)`. -/
theorem c1_counterexample :
    (orchestrate.crashRun 3 10).2.1 = 3 ∧
    (orchestrate.crashRun 3 10).2.2 = 3 ∧
    (lookupA (orchestrate.crashRun 3 10).1.jobs "crash").map orchestrate.Job.retries =
      some 3 ∧
    orchestrate.get_job_status (orchestrate.crashRun 3 10).1 "crash" =
      some (JobStatus.Finished 1) ∧
    ¬ ((orchestrate.crashRun 3 10).2.1 = 4 ∧ (orchestrate.crashRun 3 10).2.2 = 4) := by
  refine ⟨?_, ?_, ?_, ?_, ?_⟩ <;> decide

/-- C1 (amended): for a job whose service has `restart=Always(max)` and a
command that always exits nonzero, the policy increments `retries` on every
Finished event not preceded by Stopping and restarts while the *incremented*
count is still below `max`; hence for `1 ≤ max ≤ 255` the job is spawned
`max` times in total (the initial run plus `max − 1` restarts), exactly
`max` Finished events are observed, and the job ends with `retries = max`
and status `Finished`. -/
theorem c1_amended_always_retry_ceiling (max fuel : Nat)
    (h1 : 1 ≤ max) (h2 : max ≤ 255) (h3 : max ≤ fuel) :
    (orchestrate.crashRun max fuel).2.1 = max ∧
    (orchestrate.crashRun max fuel).2.2 = max ∧
    orchestrate.get_job_status (orchestrate.crashRun max fuel).1 "crash" =
      some (JobStatus.Finished 1) ∧
    (lookupA (orchestrate.crashRun max fuel).1.jobs "crash").map
      orchestrate.Job.retries = some max := by
  have hstart : orchestrate.start_request (orchestrate.crashInit max) "crash" =
      (orchestrate.crashState max 0 0,
        [Effect.spawnFx "crash", Effect.createIoFx "crash"], Except.ok ()) := by
    simp [orchestrate.start_request, orchestrate.crashInit, orchestrate.crashState,
      orchestrate.crashService, insertNewA, lookupA, adjustA, insertA]
  rw [orchestrate.crashRun, hstart]
  dsimp only
  rw [spin_crash fuel max 0 0 h1 h2 (by omega)]
  have hc : orchestrate.countSpawns
      [Effect.spawnFx "crash", Effect.createIoFx "crash"] = 1 := rfl
  refine ⟨by dsimp only; omega, by rw [hc]; dsimp only; omega, ?_, ?_⟩ <;>
    simp [orchestrate.crashFinal, orchestrate.get_job_status, lookupA]

/-- Witness for C1 (amended) at `max = 3`, `fuel = 10`: 3 Finished events,
3 spawns, final retries 3 and status `Finished(1)`. -/
theorem c1_witness :
    (orchestrate.crashRun 3 10).2.1 = 3 ∧
    (orchestrate.crashRun 3 10).2.2 = 3 ∧
    orchestrate.get_job_status (orchestrate.crashRun 3 10).1 "crash" =
      some (JobStatus.Finished 1) ∧
    (lookupA (orchestrate.crashRun 3 10).1.jobs "crash").map
      orchestrate.Job.retries = some 3 :=
  c1_amended_always_retry_ceiling 3 10 (by decide) (by decide) (by decide)
